import Mathlib

/-!
Shallow embedding of the pure core of the `friday` personal-assistant tool
(`src/friday/core/tasks.py`, `src/friday/core/calendar.py`,
`src/friday/core/briefing.py`), together with proofs about it.

Modelling conventions:
* A Python `date` is an integer day number (1970-01-01 = day 0).
* A Python `datetime` is an integer count of seconds since 1970-01-01 00:00
  on a single naive timeline; `datetime.date()` is floor division by 86400
  and `datetime.hour` is derived from the remainder.  The timezone-selection
  lines of `find_free_slots` only choose a `tzinfo` for the boundary
  datetimes; on a single naive timeline they are the identity and are not
  represented.
* `(d1 - d2).days` on dates is plain integer subtraction.
* Python `int(x)` on a float quotient truncates toward zero, so
  `int(((end - start).total_seconds()) / 60)` is `Int.tdiv (end - start) 60`.
* Python's `sorted` is a stable sort by a total preorder on keys; any stable
  sort computes the same list, so it is embedded as `List.insertionSort`
  (which Mathlib's lemmas show is a stable sort) with the key order.
* `Optional` values are `Option`; Python string fields are `String`.
-/

namespace Friday

/-- `datetime.date()` for a datetime given in seconds: floor division by
86400, matching Python's calendar-day floor for negative times as well. -/
def dateOf (t : Int) : Int :=
  t / 86400

/-- `datetime.hour` for a datetime given in seconds. -/
def hourOf (t : Int) : Int :=
  (t % 86400) / 3600

/-- `datetime.combine(d, time(h, 0))` for day number `d` and hour `h`. -/
def combine (d : Int) (h : Int) : Int :=
  d * 86400 + h * 3600

/-- The `Task` dataclass of `core/tasks.py`.  `due_date` is an optional day
number; `priority` is an arbitrary integer as in Python. -/
structure Task where
  id : String
  title : String
  priority : Int
  due_date : Option Int
  project_id : String
  project_name : String
  kind : String
deriving DecidableEq

/-- `Task.is_note`: `self.kind == "NOTE"`. -/
def Task.isNote (t : Task) : Bool :=
  t.kind = "NOTE"

/-- `Task.is_important`: `self.priority >= 3`. -/
def Task.isImportant (t : Task) : Bool :=
  decide (3 ≤ t.priority)

/-- `Task.is_urgent(urgent_days, as_of)`: `False` when there is no due date,
otherwise `(due_date - as_of).days <= urgent_days`.  The `as_of or
date.today()` default is resolved by the caller here, so `as_of` is
explicit. -/
def Task.isUrgent (t : Task) (urgentDays : Int) (asOf : Int) : Bool :=
  match t.due_date with
  | none => false
  | some d => decide (d - asOf ≤ urgentDays)

/-- `Task.quadrant(urgent_days, as_of)`: the Eisenhower quadrant 1-4. -/
def Task.quadrant (t : Task) (urgentDays : Int) (asOf : Int) : Int :=
  let important := t.isImportant
  let urgent := t.isUrgent urgentDays asOf
  if urgent && important then 1
  else if !urgent && important then 2
  else if urgent && !important then 3
  else 4

/-- `Task.days_until_due(as_of)`: signed day difference, `None` without a
due date. -/
def Task.daysUntilDue (t : Task) (asOf : Int) : Option Int :=
  match t.due_date with
  | none => none
  | some d => some (d - asOf)

/-- `filter_actionable(tasks, urgent_days, as_of)`: keep tasks that are not
notes and are urgent or in quadrant 1. -/
def filterActionable (tasks : List Task) (urgentDays : Int) (asOf : Int) : List Task :=
  tasks.filter fun t =>
    !t.isNote && (t.isUrgent urgentDays asOf || decide (t.quadrant urgentDays asOf = 1))

/-- The predicate of `filter_actionable` as the spec paraphrases it:
"not a note AND is_urgent".  Stated from the spec's words, to be compared
with `filterActionable` (refinement claim). -/
def filterActionableSpec (tasks : List Task) (urgentDays : Int) (asOf : Int) : List Task :=
  tasks.filter fun t => !t.isNote && t.isUrgent urgentDays asOf

/-- `categorize_tasks(tasks, work_lists, personal_lists)`: the three list
comprehensions of the source, returned as `(work, personal, other)`. -/
def categorizeTasks (tasks : List Task) (workLists : List String)
    (personalLists : List String) : List Task × List Task × List Task :=
  (tasks.filter fun t => decide (t.project_name ∈ workLists),
   tasks.filter fun t => decide (t.project_name ∈ personalLists),
   tasks.filter fun t =>
     !decide (t.project_name ∈ workLists) && !decide (t.project_name ∈ personalLists))

/-- The sort key of `sort_by_priority`: `(-priority, days_until_due or 9999)`. -/
def sortKey (asOf : Int) (t : Task) : Int × Int :=
  (-t.priority, match t.daysUntilDue asOf with | some d => d | none => 9999)

/-- Lexicographic order on integer pairs, as Python compares key tuples. -/
def lexLe (p q : Int × Int) : Prop :=
  p.1 < q.1 ∨ (p.1 = q.1 ∧ p.2 ≤ q.2)

instance (p q : Int × Int) : Decidable (lexLe p q) := by
  unfold lexLe
  exact inferInstance

/-- The task ordering used by `sort_by_priority` for a fixed `as_of`. -/
def taskLe (asOf : Int) (a b : Task) : Prop :=
  lexLe (sortKey asOf a) (sortKey asOf b)

instance (asOf : Int) (a b : Task) : Decidable (taskLe asOf a b) := by
  unfold taskLe
  exact inferInstance

/-- `sort_by_priority(tasks, as_of)`: Python's stable `sorted` by
`(-priority, days-until-due-or-9999)`, embedded as a stable insertion
sort under the same total preorder. -/
def sortByPriority (tasks : List Task) (asOf : Int) : List Task :=
  List.insertionSort (taskLe asOf) tasks

/-- The `Event` dataclass of `core/calendar.py`.  The Python attribute
`end` is named `stop` here (`end` is a Lean keyword); `start` and `stop`
are datetimes in seconds. -/
structure Event where
  title : String
  start : Int
  stop : Option Int
  location : String
  calendar : String
  all_day : Bool
  source : String
deriving DecidableEq

/-- The `TimeSlot` dataclass; the Python attribute `end` is named `stop`. -/
structure TimeSlot where
  start : Int
  stop : Int
deriving DecidableEq

/-- `TimeSlot.duration_minutes`: `int((end - start).total_seconds() / 60)`,
a truncating division by 60 of the length in seconds. -/
def TimeSlot.durationMinutes (s : TimeSlot) : Int :=
  Int.tdiv (s.stop - s.start) 60

/-- The event-walking loop of `find_free_slots` (its `for` statement plus
the trailing-gap check), with the `current_time` cursor and the accumulated
slot list made explicit.  `event_end = event.end or event.start` is the
`Option.getD`; datetimes are always truthy in Python, so `or` only replaces
a missing end. -/
def slotsLoop (dayStart dayEnd minDuration : Int) :
    List Event → Int → List TimeSlot → List TimeSlot
  | [], currentTime, acc =>
    if currentTime < dayEnd then
      let gap : TimeSlot := ⟨currentTime, dayEnd⟩
      if minDuration ≤ gap.durationMinutes then acc ++ [gap] else acc
    else acc
  | e :: rest, currentTime, acc =>
    let eventStart := e.start
    let eventEnd := e.stop.getD e.start
    if eventEnd ≤ dayStart ∨ eventStart ≥ dayEnd then
      slotsLoop dayStart dayEnd minDuration rest currentTime acc
    else
      let eventStart := max eventStart dayStart
      let eventEnd := min eventEnd dayEnd
      let acc :=
        if eventStart > currentTime then
          let gap : TimeSlot := ⟨currentTime, eventStart⟩
          if minDuration ≤ gap.durationMinutes then acc ++ [gap] else acc
        else acc
      slotsLoop dayStart dayEnd minDuration rest (max currentTime eventEnd) acc

/-- The target-date resolution of `find_free_slots`: the explicit
parameter, else the first event's date, else `date.today()` (the impure
`today` is passed in by the caller). -/
def effectiveDate (events : List Event) (targetDate : Option Int) (today : Int) : Int :=
  match targetDate with
  | some td => td
  | none =>
    match events with
    | e :: _ => dateOf e.start
    | [] => today

/-- `find_free_slots(events, work_start, work_end, min_duration,
target_date)`.  Timed events are the non-all-day events with an end,
sorted stably by start time. -/
def findFreeSlots (events : List Event) (workStart workEnd minDuration : Int)
    (targetDate : Option Int) (today : Int) : List TimeSlot :=
  let d := effectiveDate events targetDate today
  let timedEvents :=
    List.insertionSort (fun a b => a.start ≤ b.start)
      (events.filter fun e => !e.all_day && e.stop.isSome)
  let dayStart := combine d workStart
  let dayEnd := combine d workEnd
  slotsLoop dayStart dayEnd minDuration timedEvents dayStart []

/-- ASCII lower-casing of one character, for the case-insensitive regex. -/
def lowerChar (c : Char) : Char :=
  if 'A' ≤ c ∧ c ≤ 'Z' then Char.ofNat (c.toNat + 32) else c

/-- A regex word character (`\w`): letter, digit or underscore. -/
def isWordChar (c : Char) : Bool :=
  c.isAlphanum || c = '_'

/-- Whether `pat` is an initial segment of `cs`. -/
def leadingSegment : List Char → List Char → Bool
  | [], _ => true
  | _ :: _, [] => false
  | p :: ps, c :: cs => p = c && leadingSegment ps cs

/-- Whether `cs` starts with the literal word `pat` followed by a word
boundary (`\b`): end of string or a non-word character. -/
def leadingWord (pat : List Char) (cs : List Char) : Bool :=
  leadingSegment pat cs &&
    (match cs.drop pat.length with
     | [] => true
     | c :: _ => !isWordChar c)

/-- `_OOO_PATTERN.search(title)`: the regex is anchored at the start of the
title (`^(ooo|out of office)\b`, case-insensitive), so it matches exactly
when the lower-cased title begins with the word "ooo" or "out of office". -/
def oooMatch (title : String) : Bool :=
  let t := title.toList.map lowerChar
  leadingWord ("ooo".toList) t || leadingWord ("out of office".toList) t

/-- The local `_overlaps` of `drop_redundant_ooo`:
`a.start < b_end and b.start < a_end` with `end or start` fallback. -/
def eventsOverlap (a b : Event) : Bool :=
  decide (a.start < b.stop.getD b.start) && decide (b.start < a.stop.getD a.start)

/-- The `(calendar, date)` pairs that carry an all-day OOO event
(rule 2's `ooo_calendars_by_date`, collected as a list). -/
def oooAllDayPairs (events : List Event) : List (String × Int) :=
  events.filterMap fun e =>
    if oooMatch e.title && e.all_day then some (e.calendar, dateOf e.start) else none

/-- The per-event drop decision of `drop_redundant_ooo`: an OOO-titled
event is dropped when an event of a different calendar overlaps it
(rule 1); any other event is dropped when its `(calendar, date)` pair has
an all-day OOO (rule 2).  The Python loop skips the index `j == i` when
scanning for rule 1, but the scan demands `other.calendar != ooo.calendar`,
which is false for the event itself, so the skip never changes the
outcome and the decision depends only on the event's value and the list. -/
def dropsEvent (events : List Event) (pairs : List (String × Int)) (e : Event) : Bool :=
  if oooMatch e.title then
    events.any fun o => decide (o.calendar ≠ e.calendar) && eventsOverlap e o
  else
    decide ((e.calendar, dateOf e.start) ∈ pairs)

/-- `drop_redundant_ooo(events)`: return the list unchanged when no title
matches the OOO pattern, otherwise keep exactly the events not marked by
`dropsEvent`, preserving order. -/
def dropRedundantOoo (events : List Event) : List Event :=
  if events.all (fun e => !oooMatch e.title) then events
  else events.filter fun e => !dropsEvent events (oooAllDayPairs events) e

/-- The `BriefingData` dataclass of `core/briefing.py`. -/
structure BriefingData where
  date : Int
  day_of_week : String
  work_tasks : List Task
  personal_tasks : List Task
  other_tasks : List Task
  events : List Event
  free_slots : List TimeSlot
  is_work_hours : Bool
  work_hours_str : String
deriving DecidableEq

/-- `today.strftime("%A")`: the English weekday name of a day number
(day 0, 1970-01-01, was a Thursday). -/
def weekdayName (d : Int) : String :=
  List.getD ["Monday", "Tuesday", "Wednesday", "Thursday", "Friday", "Saturday", "Sunday"]
    ((d + 3) % 7).toNat "Monday"

/-- `f"{n:02d}"`: decimal rendering padded with a leading zero to width 2. -/
def pad2 (n : Int) : String :=
  if 0 ≤ n ∧ n < 10 then "0" ++ toString n else toString n

/-- `assemble_briefing(tasks, events, work_task_lists, personal_task_lists,
work_start, work_end, as_of, urgent_days)` with an explicit `as_of`
datetime (the `as_of or datetime.now()` default is resolved by the
caller). -/
def assembleBriefing (tasks : List Task) (events : List Event)
    (workTaskLists personalTaskLists : List String)
    (workStart workEnd : Int) (asOf : Int) (urgentDays : Int) : BriefingData :=
  let today := dateOf asOf
  let actionable := filterActionable tasks urgentDays today
  let cat := categorizeTasks actionable workTaskLists personalTaskLists
  let work := sortByPriority cat.1 today
  let personal := sortByPriority cat.2.1 today
  let other := sortByPriority cat.2.2 today
  let freeSlots := findFreeSlots events workStart workEnd 30 (some today) today
  { date := today
    day_of_week := weekdayName today
    work_tasks := work
    personal_tasks := personal
    other_tasks := other
    events := events
    free_slots := freeSlots
    is_work_hours := decide (workStart ≤ hourOf asOf) && decide (hourOf asOf < workEnd)
    work_hours_str := pad2 workStart ++ ":00-" ++ pad2 workEnd ++ ":00" }

/-! Concrete sample values used by witnesses and counterexamples. -/

/-- A task whose project name is configured as both a work and a personal
list. -/
def bothListsTask : Task := ⟨"1", "both", 1, none, "p1", "x", "TEXT"⟩

/-- A priority-1 task due 10000 days after day 0. -/
def datedFarTask : Task := ⟨"a", "far", 1, some 10000, "p1", "x", "TEXT"⟩

/-- A priority-1 task with no due date. -/
def undatedTask : Task := ⟨"b", "none", 1, none, "p1", "x", "TEXT"⟩

/-- A task due on day 3. -/
def dueDay3Task : Task := ⟨"c", "d3", 0, some 3, "p1", "x", "TEXT"⟩

/-- A task due on day 4. -/
def dueDay4Task : Task := ⟨"d", "d4", 0, some 4, "p1", "x", "TEXT"⟩

/-- A task one day overdue relative to day 0. -/
def overdueTask : Task := ⟨"e", "od", 0, some (-1), "p1", "x", "TEXT"⟩

/-- An all-day OOO event on calendar "work", day 0. -/
def oooAllDayEvent : Event := ⟨"OOO", 0, some 86400, "", "work", true, "s"⟩

/-- An OOO-titled timed event on calendar "work", day 0, 10:00-11:00. -/
def oooTimedEvent : Event := ⟨"OOO dentist", 36000, some 39600, "", "work", false, "s"⟩

/-- A non-OOO timed event on calendar "work", day 0, 10:00-11:00. -/
def standupEvent : Event := ⟨"Standup", 36000, some 39600, "", "work", false, "s"⟩

/-- A malformed timed event on day 0 whose end (10:00) precedes its start
(12:00). -/
def invertedEvent : Event := ⟨"Bad", 43200, some 36000, "", "c", false, "s"⟩

/-- A timed event on day 0, 10:00-11:00. -/
def tenOClockEvent : Event := ⟨"A", 36000, some 39600, "", "c", false, "s"⟩

/-- A timed event on day 0, 11:00-12:00, back-to-back with
`tenOClockEvent`. -/
def elevenOClockEvent : Event := ⟨"B", 39600, some 43200, "", "c", false, "s"⟩

/-- A timed event on day 0 from 09:00:30 to 17:00, leaving a 30-second
morning gap inside a 9-17 window. -/
def nineOhClockThirtyEvent : Event := ⟨"C", 32430, some 61200, "", "c", false, "s"⟩

/-- The well-formedness a `TimeSlot` of `find_free_slots` is claimed to
enjoy for work-hour boundaries `dayStart`/`dayEnd` and a minimum
duration: it lies inside the window, runs forward, and is long enough. -/
def slotOk (dayStart dayEnd minDuration : Int) (s : TimeSlot) : Prop :=
  dayStart ≤ s.start ∧ s.start < s.stop ∧ s.stop ≤ dayEnd ∧
    minDuration ≤ s.durationMinutes

/-- Slots are in chronological order and pairwise non-overlapping: each
slot ends at or before the next begins. -/
def chronological (slots : List TimeSlot) : Prop :=
  List.Pairwise (fun a b => a.stop ≤ b.start) slots

/-! Proofs. -/

theorem lexLe_total (p q : Int × Int) : lexLe p q ∨ lexLe q p := by
  unfold lexLe
  omega

theorem lexLe_trans {p q r : Int × Int} (h₁ : lexLe p q) (h₂ : lexLe q r) : lexLe p r := by
  unfold lexLe at *
  omega

instance (asOf : Int) : IsTotal Task (taskLe asOf) :=
  ⟨fun a b => lexLe_total (sortKey asOf a) (sortKey asOf b)⟩

instance (asOf : Int) : IsTrans Task (taskLe asOf) :=
  ⟨fun _ _ _ h₁ h₂ => lexLe_trans h₁ h₂⟩

/-- C4.  The filtering predicate of `filter_actionable` agrees with the
spec's simplification "not a note AND is_urgent": the quadrant-1 disjunct
is absorbed because quadrant 1 already requires urgency under the same
`urgent_days`.  Hence `filter_actionable` returns exactly the tasks that
are not NOTE-kind and satisfy `is_urgent`. -/
theorem filter_actionable_eq_spec (tasks : List Task) (urgentDays asOf : Int) :
    filterActionable tasks urgentDays asOf = filterActionableSpec tasks urgentDays asOf := by
  unfold filterActionable filterActionableSpec
  congr 1
  funext t
  cases hu : t.isUrgent urgentDays asOf <;>
    cases hi : t.isImportant <;>
      simp [Task.quadrant, hu, hi]

/-- C8 (amended).  A task due exactly `urgent_days` days after `as_of` is
urgent, one due `urgent_days + 1` days after is not, and — provided
`urgent_days ≥ -1`, in particular for every non-negative window such as
the default 3 — a task due strictly before `as_of` is always urgent. -/
theorem is_urgent_boundary (t : Task) (urgentDays asOf : Int) :
    (t.due_date = some (asOf + urgentDays) → t.isUrgent urgentDays asOf = true) ∧
    (t.due_date = some (asOf + urgentDays + 1) → t.isUrgent urgentDays asOf = false) ∧
    (∀ d, t.due_date = some d → d < asOf → -1 ≤ urgentDays →
      t.isUrgent urgentDays asOf = true) := by
  refine ⟨fun h => ?_, fun h => ?_, fun d h hd hw => ?_⟩ <;>
    simp only [Task.isUrgent, h] <;>
      simp <;> omega

/-- C8, witness: the three parts of `is_urgent_boundary` at concrete tasks
with `urgent_days = 3`, `as_of = day 0`. -/
theorem is_urgent_boundary_witness :
    Task.isUrgent dueDay3Task 3 0 = true ∧
    Task.isUrgent dueDay4Task 3 0 = false ∧
    Task.isUrgent overdueTask 3 0 = true :=
  ⟨(is_urgent_boundary dueDay3Task 3 0).1 (by decide),
   (is_urgent_boundary dueDay4Task 3 0).2.1 (by decide),
   (is_urgent_boundary overdueTask 3 0).2.2 (-1) (by decide) (by decide) (by decide)⟩

/-- C8, counterexample to the claim as stated: with a negative window
`urgent_days = -2`, the task due on day -1 is overdue relative to day 0
yet `is_urgent` is false, so overdue tasks are not always urgent for
every `urgent_days`. -/
theorem is_urgent_overdue_cex :
    overdueTask.due_date = some (-1) ∧ (-1 : Int) < 0 ∧
      Task.isUrgent overdueTask (-2) 0 = false := by
  decide

/-- C1 (amended).  Membership in the three buckets of `categorize_tasks`
is characterized independently: a task goes to `work` iff its project name
is in `work_lists`, to `personal` iff it is in `personal_lists`, and to
`other` iff it is in neither — so a project name present in both lists
places the task in both the work and the personal buckets, and the buckets
partition the input exactly when no project name occurs in both lists. -/
theorem categorize_tasks_membership (tasks : List Task) (workLists personalLists : List String)
    (t : Task) (ht : t ∈ tasks) :
    (t ∈ (categorizeTasks tasks workLists personalLists).1 ↔ t.project_name ∈ workLists) ∧
    (t ∈ (categorizeTasks tasks workLists personalLists).2.1 ↔ t.project_name ∈ personalLists) ∧
    (t ∈ (categorizeTasks tasks workLists personalLists).2.2 ↔
      (t.project_name ∉ workLists ∧ t.project_name ∉ personalLists)) := by
  simp [categorizeTasks, List.mem_filter, ht]

/-- C1, witness: `categorize_tasks_membership` applied to a concrete task
whose project name is configured in both lists. -/
theorem categorize_tasks_membership_witness :
    (bothListsTask ∈ (categorizeTasks [bothListsTask] ["x"] ["x"]).1 ↔
      bothListsTask.project_name ∈ ["x"]) ∧
    (bothListsTask ∈ (categorizeTasks [bothListsTask] ["x"] ["x"]).2.1 ↔
      bothListsTask.project_name ∈ ["x"]) ∧
    (bothListsTask ∈ (categorizeTasks [bothListsTask] ["x"] ["x"]).2.2 ↔
      (bothListsTask.project_name ∉ ["x"] ∧ bothListsTask.project_name ∉ ["x"])) :=
  categorize_tasks_membership [bothListsTask] ["x"] ["x"] bothListsTask (by decide)

/-- C1, counterexample to the claim as stated: with `work_lists =
personal_lists = ["x"]`, the task with project name "x" is placed in both
the work and the personal buckets, not in the work bucket only. -/
theorem categorize_tasks_both_cex :
    bothListsTask ∈ (categorizeTasks [bothListsTask] ["x"] ["x"]).1 ∧
      bothListsTask ∈ (categorizeTasks [bothListsTask] ["x"] ["x"]).2.1 := by
  decide

/-- C7 (amended).  In the output of `sort_by_priority` no task without a
due date ever precedes a task of the same priority whose due date lies
strictly less than 9999 days after `as_of` (the sentinel value used for
missing due dates); dated tasks at least 9999 days out are not so
ordered. -/
theorem sort_by_priority_undated_last (tasks : List Task) (asOf : Int) :
    List.Pairwise
      (fun a b => ¬(a.priority = b.priority ∧ a.due_date = none ∧
        ∃ d, b.due_date = some d ∧ d - asOf < 9999))
      (sortByPriority tasks asOf) := by
  have hs := List.sorted_insertionSort (taskLe asOf) tasks
  unfold sortByPriority
  refine hs.imp ?_
  rintro a b hab ⟨hp, hnone, d, hd, hlt⟩
  simp only [taskLe, lexLe, sortKey, Task.daysUntilDue, hnone, hd, hp] at hab
  omega

/-- C7, counterexample to the claim as stated: with `as_of = 0`, the
undated priority-1 task sorts before the priority-1 task due 10000 days
out (its key 10000 exceeds the 9999 sentinel), so undated tasks do not
come after every dated task of the same priority. -/
theorem sort_by_priority_far_due_cex :
    sortByPriority [datedFarTask, undatedTask] 0 = [undatedTask, datedFarTask] ∧
      undatedTask.due_date = none ∧ datedFarTask.due_date = some 10000 ∧
      datedFarTask.priority = undatedTask.priority := by
  decide

/-! Lemmas about `drop_redundant_ooo`. -/

theorem dropRedundantOoo_sublist (events : List Event) :
    (dropRedundantOoo events).Sublist events := by
  unfold dropRedundantOoo
  split
  · exact List.Sublist.refl events
  · exact List.filter_sublist events

theorem oooAllDayPairs_subset {l₁ l₂ : List Event} (h : l₁.Sublist l₂) :
    ∀ x ∈ oooAllDayPairs l₁, x ∈ oooAllDayPairs l₂ :=
  (List.Sublist.filterMap _ h).subset

theorem dropsEvent_false_mono {l l' : List Event} {p p' : List (String × Int)}
    (hl : ∀ x ∈ l', x ∈ l) (hp : ∀ x ∈ p', x ∈ p) (e : Event)
    (h : dropsEvent l p e = false) : dropsEvent l' p' e = false := by
  unfold dropsEvent at h ⊢
  by_cases hooo : oooMatch e.title = true
  · rw [if_pos hooo] at h ⊢
    rw [List.any_eq_false] at h ⊢
    exact fun o ho => h o (hl o ho)
  · rw [if_neg hooo] at h ⊢
    simp only [decide_eq_false_iff_not] at h ⊢
    exact fun hm => h (hp _ hm)

theorem dropRedundantOoo_eq_of_all {events : List Event}
    (h : events.all (fun e => !oooMatch e.title)) :
    dropRedundantOoo events = events := by
  unfold dropRedundantOoo
  rw [if_pos h]

theorem dropRedundantOoo_eq_of_not_all {events : List Event}
    (h : ¬events.all (fun e => !oooMatch e.title)) :
    dropRedundantOoo events =
      events.filter (fun e => !dropsEvent events (oooAllDayPairs events) e) := by
  unfold dropRedundantOoo
  rw [if_neg h]

theorem mem_dropRedundantOoo_not_drops {events : List Event} {e : Event}
    (h0 : ¬events.all (fun e => !oooMatch e.title))
    (he : e ∈ dropRedundantOoo events) :
    e ∈ events ∧ dropsEvent events (oooAllDayPairs events) e = false := by
  rw [dropRedundantOoo_eq_of_not_all h0] at he
  have := List.mem_filter.mp he
  exact ⟨this.1, by simpa using this.2⟩

/-- C2 (amended).  If an all-day OOO event exists for a `(calendar, date)`
pair, `drop_redundant_ooo` drops every *non-OOO-titled* event from that
calendar whose start date is that date.  OOO-titled events are exempt from
this rule: they are only dropped when an event from a different calendar
overlaps them. -/
theorem drop_redundant_ooo_all_day (events : List Event) (a e : Event)
    (ha : a ∈ events) (haooo : oooMatch a.title = true) (had : a.all_day = true)
    (heooo : oooMatch e.title = false) (hcal : e.calendar = a.calendar)
    (hdate : dateOf e.start = dateOf a.start) :
    e ∉ dropRedundantOoo events := by
  intro hmem
  have h0 : ¬events.all (fun e => !oooMatch e.title) := by
    intro hall
    have hthis : (!oooMatch a.title) = true := List.all_eq_true.mp hall a ha
    rw [haooo] at hthis
    simp at hthis
  have hdrop := (mem_dropRedundantOoo_not_drops h0 hmem).2
  unfold dropsEvent at hdrop
  rw [if_neg (by simp [heooo])] at hdrop
  rw [decide_eq_false_iff_not] at hdrop
  exact hdrop (List.mem_filterMap.mpr ⟨a, ha, by rw [haooo, had, hcal, hdate]; rfl⟩)

/-- C2, witness: `drop_redundant_ooo_all_day` applied to the concrete pair
of an all-day OOO and a same-calendar, same-day standup meeting. -/
theorem drop_redundant_ooo_all_day_witness :
    standupEvent ∉ dropRedundantOoo [oooAllDayEvent, standupEvent] :=
  drop_redundant_ooo_all_day [oooAllDayEvent, standupEvent] oooAllDayEvent standupEvent
    (by decide) (by decide) (by decide) (by decide) (by decide) (by decide)

/-- C2, counterexample to the claim as stated: the timed event titled
"OOO dentist" sits on the same calendar and date as the all-day OOO, is
distinct from it, yet survives `drop_redundant_ooo` — because OOO-titled
events never reach the all-day suppression rule. -/
theorem drop_redundant_ooo_ooo_titled_cex :
    dropRedundantOoo [oooAllDayEvent, oooTimedEvent] = [oooAllDayEvent, oooTimedEvent] ∧
      oooTimedEvent ≠ oooAllDayEvent ∧
      oooTimedEvent.calendar = oooAllDayEvent.calendar ∧
      dateOf oooTimedEvent.start = dateOf oooAllDayEvent.start ∧
      oooAllDayEvent.all_day = true ∧ oooMatch oooAllDayEvent.title = true := by
  decide

/-- C5.  `drop_redundant_ooo` is idempotent: a second pass drops nothing,
because every surviving OOO event still has no different-calendar overlap
within the (smaller) surviving list, and every surviving non-OOO event's
`(calendar, date)` pair is absent from the surviving all-day-OOO pairs,
which are a subset of the original ones. -/
theorem drop_redundant_ooo_idempotent (events : List Event) :
    dropRedundantOoo (dropRedundantOoo events) = dropRedundantOoo events := by
  by_cases h0 : events.all (fun e => !oooMatch e.title)
  · rw [dropRedundantOoo_eq_of_all h0, dropRedundantOoo_eq_of_all h0]
  · have hsub : (dropRedundantOoo events).Sublist events := dropRedundantOoo_sublist events
    by_cases h1 : (dropRedundantOoo events).all (fun e => !oooMatch e.title)
    · rw [dropRedundantOoo_eq_of_all h1]
    · rw [dropRedundantOoo_eq_of_not_all h1, List.filter_eq_self]
      intro e he
      have hkept := (mem_dropRedundantOoo_not_drops h0 he).2
      have : dropsEvent (dropRedundantOoo events) (oooAllDayPairs (dropRedundantOoo events)) e = false :=
        dropsEvent_false_mono hsub.subset (oooAllDayPairs_subset hsub) e hkept
      simp [this]

/-- Invariant of the event-walking loop: starting at or after `dayStart`
with an accumulator of well-formed, chronologically ordered slots that all
end by the cursor, the loop returns only well-formed slots in
chronological order.  Requires each event to run forward
(`start ≤ end`). -/
theorem slotsLoop_ok (ds de md : Int) :
    ∀ (evs : List Event) (cur : Int) (acc : List TimeSlot),
      (∀ e ∈ evs, e.start ≤ e.stop.getD e.start) →
      ds ≤ cur →
      (∀ s ∈ acc, slotOk ds de md s ∧ s.stop ≤ cur) →
      chronological acc →
      (∀ s ∈ slotsLoop ds de md evs cur acc, slotOk ds de md s) ∧
        chronological (slotsLoop ds de md evs cur acc) := by
  intro evs
  induction evs with
  | nil =>
    intro cur acc hwf hcur hacc hchr
    simp only [slotsLoop]
    split
    case isTrue h =>
      split
      case isTrue hdur =>
        constructor
        · intro s hs
          rcases List.mem_append.mp hs with hs | hs
          · exact (hacc s hs).1
          · rw [List.mem_singleton.mp hs]
            exact ⟨hcur, h, le_refl de, hdur⟩
        · rw [chronological, List.pairwise_append]
          refine ⟨hchr, List.pairwise_singleton _ _, ?_⟩
          intro a ha b hb
          rw [List.mem_singleton.mp hb]
          exact (hacc a ha).2
      case isFalse hdur =>
        exact ⟨fun s hs => (hacc s hs).1, hchr⟩
    case isFalse h =>
      exact ⟨fun s hs => (hacc s hs).1, hchr⟩
  | cons e rest ih =>
    intro cur acc hwf hcur hacc hchr
    simp only [slotsLoop]
    split
    case isTrue hskip =>
      exact ih cur acc (fun x hx => hwf x (List.mem_cons_of_mem e hx)) hcur hacc hchr
    case isFalse hskip =>
      push_neg at hskip
      obtain ⟨hde, hes⟩ := hskip
      have hwfe : e.start ≤ e.stop.getD e.start := hwf e (List.mem_cons_self e rest)
      apply ih
      · exact fun x hx => hwf x (List.mem_cons_of_mem e hx)
      · omega
      · intro s hs
        by_cases hgt : max e.start ds > cur
        · rw [if_pos hgt] at hs
          by_cases hdur : md ≤ TimeSlot.durationMinutes ⟨cur, max e.start ds⟩
          · rw [if_pos hdur] at hs
            rcases List.mem_append.mp hs with hs | hs
            · obtain ⟨hok, hstop⟩ := hacc s hs
              exact ⟨hok, by omega⟩
            · rw [List.mem_singleton.mp hs]
              refine ⟨⟨hcur, hgt, ?_, hdur⟩, ?_⟩
              · dsimp only
                omega
              · dsimp only
                omega
          · rw [if_neg hdur] at hs
            obtain ⟨hok, hstop⟩ := hacc s hs
            exact ⟨hok, by omega⟩
        · rw [if_neg hgt] at hs
          obtain ⟨hok, hstop⟩ := hacc s hs
          exact ⟨hok, by omega⟩
      · by_cases hgt : max e.start ds > cur
        · rw [if_pos hgt]
          by_cases hdur : md ≤ TimeSlot.durationMinutes ⟨cur, max e.start ds⟩
          · rw [if_pos hdur]
            rw [chronological, List.pairwise_append]
            refine ⟨hchr, List.pairwise_singleton _ _, ?_⟩
            intro a ha b hb
            rw [List.mem_singleton.mp hb]
            exact (hacc a ha).2
          · rw [if_neg hdur]
            exact hchr
        · rw [if_neg hgt]
          exact hchr

/-- C3 (amended).  Provided every event runs forward (`start ≤ end`, with
`start` substituted for a missing `end`), `find_free_slots` returns
pairwise non-overlapping slots in chronological order, each lying within
`[day_start, day_end]`, running forward, and at least `min_duration`
whole minutes long. -/
theorem find_free_slots_ok (events : List Event) (workStart workEnd minDuration : Int)
    (targetDate : Option Int) (today : Int)
    (hwf : ∀ e ∈ events, e.start ≤ e.stop.getD e.start) :
    (∀ s ∈ findFreeSlots events workStart workEnd minDuration targetDate today,
       slotOk (combine (effectiveDate events targetDate today) workStart)
         (combine (effectiveDate events targetDate today) workEnd) minDuration s) ∧
      chronological (findFreeSlots events workStart workEnd minDuration targetDate today) := by
  unfold findFreeSlots
  apply slotsLoop_ok
  · intro e he
    have hperm := List.perm_insertionSort (fun a b => a.start ≤ b.start)
      (events.filter fun e => !e.all_day && e.stop.isSome)
    exact hwf e (List.mem_filter.mp (hperm.mem_iff.mp he)).1
  · exact le_refl _
  · intro s hs
    cases hs
  · exact List.Pairwise.nil

/-- C3, witness: `find_free_slots_ok` at a one-event day within a 9-17
window. -/
theorem find_free_slots_ok_witness :
    (∀ s ∈ findFreeSlots [tenOClockEvent] 9 17 30 (some 0) 0,
       slotOk (combine (effectiveDate [tenOClockEvent] (some 0) 0) 9)
         (combine (effectiveDate [tenOClockEvent] (some 0) 0) 17) 30 s) ∧
      chronological (findFreeSlots [tenOClockEvent] 9 17 30 (some 0) 0) :=
  find_free_slots_ok [tenOClockEvent] 9 17 30 (some 0) 0 (by decide)

/-- C3, counterexample to the claim as stated: on a malformed event whose
end precedes its start, `find_free_slots` emits two overlapping,
non-chronological slots (the second starts before the first ends). -/
theorem find_free_slots_overlap_cex :
    findFreeSlots [invertedEvent] 9 17 30 (some 0) 0 =
      [⟨32400, 43200⟩, ⟨36000, 61200⟩] ∧
      ¬chronological [(⟨32400, 43200⟩ : TimeSlot), ⟨36000, 61200⟩] := by
  refine ⟨by decide, fun h => ?_⟩
  have hle := (List.pairwise_cons.mp h).1 ⟨36000, 61200⟩ (List.mem_singleton.mpr rfl)
  dsimp only at hle
  omega

/-- Every slot the loop emits runs strictly forward, for any minimum
duration: both gap emissions require the gap's start to be strictly below
its end. -/
theorem slotsLoop_pos (ds de md : Int) :
    ∀ (evs : List Event) (cur : Int) (acc : List TimeSlot),
      (∀ s ∈ acc, s.start < s.stop) →
      ∀ s ∈ slotsLoop ds de md evs cur acc, s.start < s.stop := by
  intro evs
  induction evs with
  | nil =>
    intro cur acc hacc s hs
    simp only [slotsLoop] at hs
    split at hs
    case isTrue h =>
      split at hs
      case isTrue hdur =>
        rcases List.mem_append.mp hs with hs | hs
        · exact hacc s hs
        · rw [List.mem_singleton.mp hs]
          exact h
      case isFalse hdur => exact hacc s hs
    case isFalse h => exact hacc s hs
  | cons e rest ih =>
    intro cur acc hacc s hs
    simp only [slotsLoop] at hs
    split at hs
    case isTrue hskip => exact ih cur acc hacc s hs
    case isFalse hskip =>
      refine ih _ _ ?_ s hs
      intro x hx
      by_cases hgt : max e.start ds > cur
      · rw [if_pos hgt] at hx
        by_cases hdur : md ≤ TimeSlot.durationMinutes ⟨cur, max e.start ds⟩
        · rw [if_pos hdur] at hx
          rcases List.mem_append.mp hx with hx | hx
          · exact hacc x hx
          · rw [List.mem_singleton.mp hx]
            exact hgt
        · rw [if_neg hdur] at hx
          exact hacc x hx
      · rw [if_neg hgt] at hx
        exact hacc x hx

/-- C6 (amended).  With `min_duration = 0`, `find_free_slots` never
returns a zero-length slot: every returned slot starts strictly before it
ends, so the zero-length boundary between back-to-back events is never
admitted (the gap check requires the clamped start to lie strictly after
the cursor).  What `min_duration = 0` does admit is a positive sub-minute
gap, whose whole-minute duration is 0, as the concrete 30-second example
shows. -/
theorem find_free_slots_min0_no_empty_slot :
    (∀ (events : List Event) (workStart workEnd : Int) (targetDate : Option Int)
        (today : Int) (s : TimeSlot),
        s ∈ findFreeSlots events workStart workEnd 0 targetDate today →
          s.start < s.stop) ∧
      (findFreeSlots [nineOhClockThirtyEvent] 9 17 0 (some 0) 0 = [⟨32400, 32430⟩] ∧
        TimeSlot.durationMinutes ⟨32400, 32430⟩ = 0) := by
  refine ⟨?_, by decide, by decide⟩
  intro events ws we td today s hs
  unfold findFreeSlots at hs
  exact slotsLoop_pos _ _ _ _ _ _ (fun x hx => absurd hx (List.not_mem_nil x)) s hs

/-- C6, witness: the membership hypothesis of
`find_free_slots_min0_no_empty_slot` discharged on the 30-second-gap
day. -/
theorem find_free_slots_min0_witness :
    (TimeSlot.mk 32400 32430).start < (TimeSlot.mk 32400 32430).stop :=
  find_free_slots_min0_no_empty_slot.1 [nineOhClockThirtyEvent] 9 17 (some 0) 0
    ⟨32400, 32430⟩ (by decide)

/-- C6, counterexample to the claim as stated: with two back-to-back
events (10-11 and 11-12) and `min_duration = 0`, the output contains only
the two positive gaps; the zero-length slot at the 11:00 boundary is not
returned. -/
theorem find_free_slots_backtoback_cex :
    findFreeSlots [tenOClockEvent, elevenOClockEvent] 9 17 0 (some 0) 0 =
      [⟨32400, 36000⟩, ⟨43200, 61200⟩] ∧
      (⟨39600, 39600⟩ : TimeSlot) ∉
        findFreeSlots [tenOClockEvent, elevenOClockEvent] 9 17 0 (some 0) 0 := by
  decide

/-- When the work window is empty or inverted (`day_end ≤ day_start`) the
loop can never emit: a gap before an event needs the clamped start above
the cursor, but clamping bounds it by `day_start`, and the trailing gap
needs the cursor below `day_end`. -/
theorem slotsLoop_inverted (ds de md : Int) (hinv : de ≤ ds) :
    ∀ (evs : List Event) (cur : Int) (acc : List TimeSlot), ds ≤ cur →
      slotsLoop ds de md evs cur acc = acc := by
  intro evs
  induction evs with
  | nil =>
    intro cur acc hcur
    simp only [slotsLoop]
    rw [if_neg (by omega)]
  | cons e rest ih =>
    intro cur acc hcur
    simp only [slotsLoop]
    split
    case isTrue hskip => exact ih cur acc hcur
    case isFalse hskip =>
      push_neg at hskip
      rw [if_neg (by omega : ¬max e.start ds > cur)]
      exact ih _ acc (by omega)

/-- C10.  With an empty or inverted work-hour window
(`work_start ≥ work_end`), `find_free_slots` returns the empty list for
every event list, minimum duration and target date. -/
theorem find_free_slots_inverted_window (events : List Event)
    (workStart workEnd minDuration : Int) (targetDate : Option Int) (today : Int)
    (hrev : workEnd ≤ workStart) :
    findFreeSlots events workStart workEnd minDuration targetDate today = [] := by
  unfold findFreeSlots
  apply slotsLoop_inverted
  · unfold combine
    omega
  · exact le_refl _

/-- C10, witness: a 17-to-9 window over a one-event day yields no
slots. -/
theorem find_free_slots_inverted_window_witness :
    findFreeSlots [tenOClockEvent] 17 9 30 (some 0) 0 = [] :=
  find_free_slots_inverted_window [tenOClockEvent] 17 9 30 (some 0) 0 (by decide)

/-- C9.  `assemble_briefing` is deterministic: with an explicit `as_of`,
equal inputs produce `BriefingData` values that agree in every field
(date, day_of_week, the three task buckets, events, free_slots,
is_work_hours, work_hours_str). -/
theorem assemble_briefing_deterministic
    (tasks₁ tasks₂ : List Task) (events₁ events₂ : List Event)
    (workLists₁ workLists₂ personalLists₁ personalLists₂ : List String)
    (workStart₁ workStart₂ workEnd₁ workEnd₂ asOf₁ asOf₂ urgentDays₁ urgentDays₂ : Int)
    (h : tasks₁ = tasks₂ ∧ events₁ = events₂ ∧ workLists₁ = workLists₂ ∧
      personalLists₁ = personalLists₂ ∧ workStart₁ = workStart₂ ∧ workEnd₁ = workEnd₂ ∧
      asOf₁ = asOf₂ ∧ urgentDays₁ = urgentDays₂) :
    (assembleBriefing tasks₁ events₁ workLists₁ personalLists₁ workStart₁ workEnd₁
        asOf₁ urgentDays₁).date =
      (assembleBriefing tasks₂ events₂ workLists₂ personalLists₂ workStart₂ workEnd₂
        asOf₂ urgentDays₂).date ∧
    (assembleBriefing tasks₁ events₁ workLists₁ personalLists₁ workStart₁ workEnd₁
        asOf₁ urgentDays₁).day_of_week =
      (assembleBriefing tasks₂ events₂ workLists₂ personalLists₂ workStart₂ workEnd₂
        asOf₂ urgentDays₂).day_of_week ∧
    (assembleBriefing tasks₁ events₁ workLists₁ personalLists₁ workStart₁ workEnd₁
        asOf₁ urgentDays₁).work_tasks =
      (assembleBriefing tasks₂ events₂ workLists₂ personalLists₂ workStart₂ workEnd₂
        asOf₂ urgentDays₂).work_tasks ∧
    (assembleBriefing tasks₁ events₁ workLists₁ personalLists₁ workStart₁ workEnd₁
        asOf₁ urgentDays₁).personal_tasks =
      (assembleBriefing tasks₂ events₂ workLists₂ personalLists₂ workStart₂ workEnd₂
        asOf₂ urgentDays₂).personal_tasks ∧
    (assembleBriefing tasks₁ events₁ workLists₁ personalLists₁ workStart₁ workEnd₁
        asOf₁ urgentDays₁).other_tasks =
      (assembleBriefing tasks₂ events₂ workLists₂ personalLists₂ workStart₂ workEnd₂
        asOf₂ urgentDays₂).other_tasks ∧
    (assembleBriefing tasks₁ events₁ workLists₁ personalLists₁ workStart₁ workEnd₁
        asOf₁ urgentDays₁).events =
      (assembleBriefing tasks₂ events₂ workLists₂ personalLists₂ workStart₂ workEnd₂
        asOf₂ urgentDays₂).events ∧
    (assembleBriefing tasks₁ events₁ workLists₁ personalLists₁ workStart₁ workEnd₁
        asOf₁ urgentDays₁).free_slots =
      (assembleBriefing tasks₂ events₂ workLists₂ personalLists₂ workStart₂ workEnd₂
        asOf₂ urgentDays₂).free_slots ∧
    (assembleBriefing tasks₁ events₁ workLists₁ personalLists₁ workStart₁ workEnd₁
        asOf₁ urgentDays₁).is_work_hours =
      (assembleBriefing tasks₂ events₂ workLists₂ personalLists₂ workStart₂ workEnd₂
        asOf₂ urgentDays₂).is_work_hours ∧
    (assembleBriefing tasks₁ events₁ workLists₁ personalLists₁ workStart₁ workEnd₁
        asOf₁ urgentDays₁).work_hours_str =
      (assembleBriefing tasks₂ events₂ workLists₂ personalLists₂ workStart₂ workEnd₂
        asOf₂ urgentDays₂).work_hours_str := by
  obtain ⟨h₁, h₂, h₃, h₄, h₅, h₆, h₇, h₈⟩ := h
  subst h₁ h₂ h₃ h₄ h₅ h₆ h₇ h₈
  exact ⟨rfl, rfl, rfl, rfl, rfl, rfl, rfl, rfl, rfl⟩

/-- C9, witness: `assemble_briefing_deterministic` applied to two copies
of a concrete input. -/
theorem assemble_briefing_deterministic_witness :
    (assembleBriefing [dueDay3Task] [tenOClockEvent] ["x"] ["y"] 9 17 36000 3).date =
      (assembleBriefing [dueDay3Task] [tenOClockEvent] ["x"] ["y"] 9 17 36000 3).date ∧
    (assembleBriefing [dueDay3Task] [tenOClockEvent] ["x"] ["y"] 9 17 36000 3).day_of_week =
      (assembleBriefing [dueDay3Task] [tenOClockEvent] ["x"] ["y"] 9 17 36000 3).day_of_week ∧
    (assembleBriefing [dueDay3Task] [tenOClockEvent] ["x"] ["y"] 9 17 36000 3).work_tasks =
      (assembleBriefing [dueDay3Task] [tenOClockEvent] ["x"] ["y"] 9 17 36000 3).work_tasks ∧
    (assembleBriefing [dueDay3Task] [tenOClockEvent] ["x"] ["y"] 9 17 36000 3).personal_tasks =
      (assembleBriefing [dueDay3Task] [tenOClockEvent] ["x"] ["y"] 9 17 36000 3).personal_tasks ∧
    (assembleBriefing [dueDay3Task] [tenOClockEvent] ["x"] ["y"] 9 17 36000 3).other_tasks =
      (assembleBriefing [dueDay3Task] [tenOClockEvent] ["x"] ["y"] 9 17 36000 3).other_tasks ∧
    (assembleBriefing [dueDay3Task] [tenOClockEvent] ["x"] ["y"] 9 17 36000 3).events =
      (assembleBriefing [dueDay3Task] [tenOClockEvent] ["x"] ["y"] 9 17 36000 3).events ∧
    (assembleBriefing [dueDay3Task] [tenOClockEvent] ["x"] ["y"] 9 17 36000 3).free_slots =
      (assembleBriefing [dueDay3Task] [tenOClockEvent] ["x"] ["y"] 9 17 36000 3).free_slots ∧
    (assembleBriefing [dueDay3Task] [tenOClockEvent] ["x"] ["y"] 9 17 36000 3).is_work_hours =
      (assembleBriefing [dueDay3Task] [tenOClockEvent] ["x"] ["y"] 9 17 36000 3).is_work_hours ∧
    (assembleBriefing [dueDay3Task] [tenOClockEvent] ["x"] ["y"] 9 17 36000 3).work_hours_str =
      (assembleBriefing [dueDay3Task] [tenOClockEvent] ["x"] ["y"] 9 17 36000 3).work_hours_str :=
  assemble_briefing_deterministic [dueDay3Task] [dueDay3Task] [tenOClockEvent] [tenOClockEvent]
    ["x"] ["x"] ["y"] ["y"] 9 9 17 17 36000 36000 3 3
    ⟨rfl, rfl, rfl, rfl, rfl, rfl, rfl, rfl⟩

end Friday
